import Mathlib

/-!
A verification development for the vegaDataframe in-memory tabular-data
engine.  The C++ class `vegaDataframe` stores a column directory
(`data_features`), a row-major cell matrix of text values (`data_values`),
and derived per-column statistics (`non_null_counts`, `null_positions`)
together with inferred column types (`column_types`).

This file gives a shallow embedding of the storage model and of the
operations relevant to the checked properties, translated directly from
the C++ source, and proves (or refutes) the stated properties.

Modelling conventions:
* `std::string` cells become Lean `String`s; a null cell is the empty string.
* `double` values become `DVal` — an exact rational, ±infinity, or NaN —
  with IEEE arithmetic and comparison rules (finite arithmetic is exact,
  with no rounding, and the sign of zero is not modelled).  The parser
  follows `strtod`: decimal and hexadecimal mantissas with optional
  exponents, and the case-insensitive `inf`/`infinity`/`nan` spellings;
  a finite decimal or hexadecimal parse beyond the double range throws
  `std::out_of_range` (caught by every caller), modelled as a failed
  parse, while the infinity and NaN spellings succeed.
* exceptions become `Except Err`; the distinct `std::runtime_error`
  messages are mapped to the error taxonomy (SchemaError / TypeError /
  StatisticalError / IndexError).
* `std::map` iteration order is not relevant to any property proved here;
  grouped results are kept in first-encounter order.
-/

namespace Vega

/-- The C++ `enum class DataType { INT, FLOAT, STRING }`. -/
inductive DataType where
  | INT
  | FLOAT
  | STRING
deriving DecidableEq, Repr

/-- The underlying enumerator value, used for the `<` comparison on
`DataType` performed by the C++ code (`inferred_type > column_types[i]`). -/
def DataType.rank : DataType → Nat
  | .INT => 0
  | .FLOAT => 1
  | .STRING => 2

/-- Error taxonomy for operations that throw. -/
inductive Err where
  | SchemaError
  | TypeError
  | StatisticalError
  | IndexError
deriving DecidableEq, Repr

/-- The `vegaDataframe` class: public fields, exactly as declared in the
header. -/
structure vegaDataframe where
  data_features : List String
  data_values : List (List String)
  non_null_counts : List Nat
  column_types : List DataType
  null_positions : List (List Nat)
deriving DecidableEq, Repr

/-! ### Numeric text parsing

The C++ code parses cells with `std::stod` (prefix parse, throwing when no
conversion is possible or the value is out of double range) and infers
types with full-string `operator>>` extractions into `long long` and
`double`. -/

/-- The C locale space class used by stream extraction and `strtod`:
space, tab, newline, vertical tab, form feed, carriage return. -/
def isSpaceC (c : Char) : Bool :=
  c = ' ' || c = '\t' || c = '\n' || c = Char.ofNat 11 || c = Char.ofNat 12 || c = '\r'

/-- Decimal digit string to a natural number. -/
def digitsToNat (ds : List Char) : Nat :=
  ds.foldl (fun n c => 10 * n + (c.toNat - 48)) 0

/-- Consume an optional sign; returns (isNegative, rest). -/
def parseSign : List Char → Bool × List Char
  | '+' :: r => (false, r)
  | '-' :: r => (true, r)
  | cs => (false, cs)

/-- Parse a decimal mantissa `digits [. digits]` or `. digits`; fails
when no digit is present.  Returns the value of all digits read as one
integer, the number of fraction digits, and the unconsumed suffix. -/
def parseMantissa (cs : List Char) : Option ((Nat × Nat) × List Char) :=
  let ip := cs.takeWhile Char.isDigit
  let r1 := cs.dropWhile Char.isDigit
  match r1 with
  | '.' :: r2 =>
      let fp := r2.takeWhile Char.isDigit
      let r3 := r2.dropWhile Char.isDigit
      if ip.isEmpty && fp.isEmpty then none
      else some ((digitsToNat (ip ++ fp), fp.length), r3)
  | _ =>
      if ip.isEmpty then none else some ((digitsToNat ip, 0), r1)

/-- Parse an optional exponent part `([eE] sign? digits)`; like `strtod`,
the `e` is consumed only when at least one digit follows. -/
def parseExponent (cs : List Char) : Int × List Char :=
  match cs with
  | e :: rest =>
      if e = 'e' || e = 'E' then
        let (neg, r1) := parseSign rest
        let ds := r1.takeWhile Char.isDigit
        let r2 := r1.dropWhile Char.isDigit
        if ds.isEmpty then (0, cs)
        else ((if neg then -(digitsToNat ds : Int) else (digitsToNat ds : Int)), r2)
      else (0, cs)
  | [] => (0, cs)

/-- `n · 10^e` as an exact rational (the decimal value a `strtod` parse
denotes, before rounding to a double). -/
def scaleByPow10 (n : Int) (e : Int) : ℚ :=
  if 0 ≤ e then ((n * ((10 : Nat) ^ e.toNat : Nat) : Int) : ℚ)
  else mkRat n ((10 : Nat) ^ (-e).toNat)

/-- The largest finite double, `std::numeric_limits<double>::max()`,
that is `2^1024 - 2^971`, written out as a numeral. -/
def maxDouble : ℚ := 179769313486231570814527423731704356798070567525844996598917476803157260780028538760589558632766878171540458953514382464234321326889464182768467546703537516986049910576551282076245490090389328944075868508455133942304583236903222948165808559332123348274797826204144723168738177180919299881250404026184124858368

/-! ### The double model

A C++ `double` is modelled as an exact finite rational, positive or
negative infinity, or NaN; arithmetic and comparisons follow the IEEE
rules except that finite arithmetic is exact (no rounding) and the sign
of zero is not modelled. -/

/-- A `double` value: exact finite rational, ±infinity, or NaN. -/
inductive DVal where
  | fin (q : ℚ)
  | inf
  | ninf
  | nan
deriving DecidableEq, Repr

/-- Whether a double value is finite. -/
def DVal.isFin : DVal → Bool
  | .fin _ => true
  | _ => false

/-- The rational carried by a finite double value. -/
def DVal.toFin? : DVal → Option ℚ
  | .fin q => some q
  | _ => none

/-- IEEE negation. -/
def DVal.neg : DVal → DVal
  | .fin q => .fin (-q)
  | .inf => .ninf
  | .ninf => .inf
  | .nan => .nan

/-- IEEE addition (exact on finite operands). -/
def DVal.add : DVal → DVal → DVal
  | .nan, _ => .nan
  | _, .nan => .nan
  | .fin a, .fin b => .fin (a + b)
  | .inf, .ninf => .nan
  | .ninf, .inf => .nan
  | .inf, _ => .inf
  | _, .inf => .inf
  | .ninf, _ => .ninf
  | _, .ninf => .ninf

/-- IEEE subtraction, `a + (-b)`. -/
def DVal.sub (a b : DVal) : DVal := a.add b.neg

/-- IEEE multiplication; `0 · ∞` is NaN. -/
def DVal.mul : DVal → DVal → DVal
  | .nan, _ => .nan
  | _, .nan => .nan
  | .fin a, .fin b => .fin (a * b)
  | .fin a, .inf => if a = 0 then .nan else if 0 < a then .inf else .ninf
  | .fin a, .ninf => if a = 0 then .nan else if 0 < a then .ninf else .inf
  | .inf, .fin b => if b = 0 then .nan else if 0 < b then .inf else .ninf
  | .ninf, .fin b => if b = 0 then .nan else if 0 < b then .ninf else .inf
  | .inf, .inf => .inf
  | .ninf, .ninf => .inf
  | .inf, .ninf => .ninf
  | .ninf, .inf => .ninf

/-- IEEE division; `0/0` and `∞/∞` are NaN, a nonzero finite value over
zero is a signed infinity (the sign of zero itself is not modelled). -/
def DVal.div : DVal → DVal → DVal
  | .nan, _ => .nan
  | _, .nan => .nan
  | .fin a, .fin b =>
      if b = 0 then (if a = 0 then .nan else if 0 < a then .inf else .ninf)
      else .fin (a / b)
  | .fin _, .inf => .fin 0
  | .fin _, .ninf => .fin 0
  | .inf, .fin b => if b < 0 then .ninf else .inf
  | .ninf, .fin b => if b < 0 then .inf else .ninf
  | .inf, .inf => .nan
  | .inf, .ninf => .nan
  | .ninf, .inf => .nan
  | .ninf, .ninf => .nan

/-- IEEE `<`: every comparison involving NaN is false. -/
def DVal.lt : DVal → DVal → Bool
  | .nan, _ => false
  | _, .nan => false
  | .fin a, .fin b => a < b
  | .ninf, .ninf => false
  | .ninf, _ => true
  | _, .ninf => false
  | .inf, .inf => false
  | .fin _, .inf => true
  | .inf, .fin _ => false

/-- The comparator used to model `std::ranges::sort` with `operator<` on
doubles: `¬(b < a)`.  On NaN-free data this is the IEEE total order; with
NaN present the C++ sort is undefined behaviour (`<` is not a strict weak
order there), so the order this comparator produces is one arbitrary
choice. -/
def DVal.le (a b : DVal) : Bool := !(DVal.lt b a)

/-- `std::min(a, b)`, that is `(b < a) ? b : a` with IEEE `<`. -/
def DVal.stdMin (a b : DVal) : DVal := if DVal.lt b a then b else a

/-- `std::max(a, b)`, that is `(a < b) ? b : a` with IEEE `<`. -/
def DVal.stdMax (a b : DVal) : DVal := if DVal.lt a b then b else a

/-- `Σ` as the C++ accumulation loops compute it: fold of IEEE addition
starting from `0.0`. -/
def DVal.sumD (l : List DVal) : DVal := l.foldl DVal.add (DVal.fin 0)

/-! ### `strtod`-faithful parsing -/

/-- Hexadecimal digit test. -/
def isHexDigitChar (c : Char) : Bool :=
  c.isDigit || ('a' ≤ c && c ≤ 'f') || ('A' ≤ c && c ≤ 'F')

/-- Value of one hexadecimal digit. -/
def hexDigitVal (c : Char) : Nat :=
  if c.isDigit then c.toNat - 48
  else if 'a' ≤ c && c ≤ 'f' then c.toNat - 87
  else c.toNat - 55

/-- Hexadecimal digit string to a natural number. -/
def hexDigitsToNat (ds : List Char) : Nat :=
  ds.foldl (fun n c => 16 * n + hexDigitVal c) 0

/-- `n · 2^e` as an exact rational (the value a hexadecimal `strtod`
parse denotes). -/
def scaleByPow2 (n : Int) (e : Int) : ℚ :=
  if 0 ≤ e then ((n * ((2 : Nat) ^ e.toNat : Nat) : Int) : ℚ)
  else mkRat n ((2 : Nat) ^ (-e).toNat)

/-- Consume `pat` (given in lowercase) case-insensitively; returns the
rest on success. -/
def matchPrefixCI : List Char → List Char → Option (List Char)
  | [], rest => some rest
  | _ :: _, [] => none
  | p :: pt, c :: ct => if c.toLower = p then matchPrefixCI pt ct else none

/-- The optional `(n-char-sequence)` that may follow `nan` in `strtod`;
if the closing parenthesis is missing the parenthesis is not consumed. -/
def parseNanSuffix (cs : List Char) : List Char :=
  match cs with
  | '(' :: r =>
      let r2 := r.dropWhile (fun c => c.isAlphanum || c = '_')
      match r2 with
      | ')' :: r3 => r3
      | _ => cs
  | _ => cs

/-- Parse an optional binary exponent `([pP] sign? digits)` of a
hexadecimal float; the `p` is consumed only when at least one digit
follows. -/
def parseHexExponent (cs : List Char) : Int × List Char :=
  match cs with
  | p :: rest =>
      if p = 'p' || p = 'P' then
        let (neg, r1) := parseSign rest
        let ds := r1.takeWhile Char.isDigit
        let r2 := r1.dropWhile Char.isDigit
        if ds.isEmpty then (0, cs)
        else ((if neg then -(digitsToNat ds : Int) else (digitsToNat ds : Int)), r2)
      else (0, cs)
  | [] => (0, cs)

/-- After `0x`, does a hexadecimal mantissa follow (a hex digit, or a
point followed by a hex digit)?  If not, `strtod` parses just the `0`. -/
def isHexStart : List Char → Bool
  | [] => false
  | c :: rest =>
      isHexDigitChar c ||
        (c = '.' && (match rest with | d :: _ => isHexDigitChar d | [] => false))

/-- Parse the hexadecimal mantissa and exponent after `0x`. -/
def parseHexTail (neg : Bool) (cs : List Char) : Option (DVal × List Char) :=
  let ip := cs.takeWhile isHexDigitChar
  let r1 := cs.dropWhile isHexDigitChar
  let (ds, fracLen, r2) :=
    match r1 with
    | '.' :: rf =>
        (ip ++ rf.takeWhile isHexDigitChar, (rf.takeWhile isHexDigitChar).length,
          rf.dropWhile isHexDigitChar)
    | _ => (ip, 0, r1)
  let (e2, r3) := parseHexExponent r2
  let v := scaleByPow2 (hexDigitsToNat ds) (e2 - 4 * fracLen)
  some (DVal.fin (if neg then -v else v), r3)

/-- Parse a decimal mantissa and exponent. -/
def parseDecTail (neg : Bool) (cs : List Char) : Option (DVal × List Char) :=
  match parseMantissa cs with
  | none => none
  | some ((m, fracLen), r) =>
      let (e, r2) := parseExponent r
      some (DVal.fin (scaleByPow10 (if neg then -(m : Int) else (m : Int))
        (e - fracLen)), r2)

/-- Core `strtod`-style prefix parse: optional whitespace, sign, then one
of the `infinity`/`inf`/`nan` spellings (case-insensitive), a hexadecimal
float `0x…`, or a decimal mantissa with optional exponent.  Returns the
exact parsed value and the unconsumed suffix. -/
def strtodCore (cs : List Char) : Option (DVal × List Char) :=
  let cs1 := cs.dropWhile isSpaceC
  let (neg, cs2) := parseSign cs1
  match matchPrefixCI ['i','n','f','i','n','i','t','y'] cs2 with
  | some r => some (if neg then DVal.ninf else DVal.inf, r)
  | none =>
  match matchPrefixCI ['i','n','f'] cs2 with
  | some r => some (if neg then DVal.ninf else DVal.inf, r)
  | none =>
  match matchPrefixCI ['n','a','n'] cs2 with
  | some r => some (DVal.nan, parseNanSuffix r)
  | none =>
  match cs2 with
  | '0' :: x :: rest =>
      if (x = 'x' || x = 'X') && isHexStart rest then parseHexTail neg rest
      else parseDecTail neg cs2
  | _ => parseDecTail neg cs2

/-- `std::stod` as used by the code: prefix parse; `none` both when no
conversion is possible (`std::invalid_argument`) and when a finite parse
is outside the double range (`std::out_of_range`) — every call site
catches both and treats the cell as invalid.  The `inf`/`infinity`/`nan`
spellings succeed and produce the corresponding non-finite value. -/
def stod? (s : String) : Option DVal :=
  match strtodCore s.data with
  | none => none
  | some (DVal.fin v, _) =>
      if maxDouble < v || v < -maxDouble then none else some (DVal.fin v)
  | some (v, _) => some v

/-- `safe_stod(str, 0.0)`: `std::stod` with failures turned into `0.0`. -/
def safe_stod (s : String) : DVal :=
  (stod? s).getD (DVal.fin 0)

/-- Full-string `long long` extraction followed by an `eof` check, as in
`(iss >> tmp_int) && iss.eof()`: optional whitespace, sign, decimal
digits, nothing else; overflow beyond the `long long` range sets the
stream's failbit. -/
def parseLongLongFull? (s : String) : Option Int :=
  let cs := s.data.dropWhile isSpaceC
  let (neg, cs1) := parseSign cs
  let ds := cs1.takeWhile Char.isDigit
  let rest := cs1.dropWhile Char.isDigit
  if ds.isEmpty || !rest.isEmpty then none
  else
    let n : Int := if neg then -(digitsToNat ds : Int) else (digitsToNat ds : Int)
    if n < -9223372036854775808 || 9223372036854775807 < n then none else some n

/-- Full-string `double` extraction followed by an `eof` check, as in
`(iss >> tmp_double) && iss.eof()`.  Stream `num_get` extraction, unlike
`strtod`, rejects the `inf`/`infinity`/`nan` spellings, so only finite
in-range parses succeed. -/
def parseDoubleFull? (s : String) : Option ℚ :=
  match strtodCore s.data with
  | some (DVal.fin v, []) =>
      if maxDouble < v || v < -maxDouble then none else some v
  | _ => none

/-- `infer_data_type`: empty → STRING; whole-string integer parse → INT;
whole-string double parse → FLOAT; otherwise STRING. -/
def infer_data_type (value : String) : DataType :=
  if value = "" then .STRING
  else if (parseLongLongFull? value).isSome then .INT
  else if (parseDoubleFull? value).isSome then .FLOAT
  else .STRING

namespace vegaDataframe

/-- Number of rows, `data_values.size()`. -/
def rowCount (df : vegaDataframe) : Nat := df.data_values.length

/-- `shape()`: `{data_values.size(), data_features.size()}`. -/
def shape (df : vegaDataframe) : Nat × Nat :=
  (df.data_values.length, df.data_features.length)

/-- `find_column_index`: position of the first column with the given name;
throws (modelled as `SchemaError`, the taxonomy's unknown-column error)
when the name is absent. -/
def find_column_index (df : vegaDataframe) (col_name : String) : Except Err Nat :=
  match df.data_features.findIdx? (· == col_name) with
  | some i => .ok i
  | none => .error .SchemaError

/-- `update_stats_after_modification`: recompute `non_null_counts` and
`null_positions` from scratch.  The C++ inner loop runs for
`col < column_count && col < data_values[row].size()`, so a cell position
beyond a row's actual length is counted in neither statistic. -/
def update_stats_after_modification (df : vegaDataframe) : vegaDataframe :=
  let column_count := df.data_features.length
  { df with
    non_null_counts := (List.range column_count).map (fun col =>
      ((List.range df.data_values.length).filter (fun row =>
        decide (col < (df.data_values.getD row []).length) &&
          !((df.data_values.getD row []).getD col "" == ""))).length),
    null_positions := (List.range column_count).map (fun col =>
      (List.range df.data_values.length).filter (fun row =>
        decide (col < (df.data_values.getD row []).length) &&
          ((df.data_values.getD row []).getD col "" == ""))) }

/-- `add_column(col_name, values)`: size check, then append the name, a
`STRING` type entry, and the per-value statistics; each row gets the
corresponding value appended. -/
def add_column (df : vegaDataframe) (col_name : String) (values : List String) :
    Except Err vegaDataframe :=
  if values.length ≠ df.data_values.length then .error .SchemaError
  else .ok
    { data_features := df.data_features ++ [col_name],
      column_types := df.column_types ++ [.STRING],
      non_null_counts := df.non_null_counts ++ [(values.filter (fun v => !(v == ""))).length],
      null_positions := df.null_positions ++
        [(List.range values.length).filter (fun i => values.getD i "" == "")],
      data_values := df.data_values.zipWith (fun row v => row ++ [v]) values }

/-- The cells of column `col_idx` that survive the statistical scans: the
scan visits a row only when `col_idx < row.size()` and the cell is
non-empty, then tries `std::stod` and skips the cell on failure.  A cell
spelt `inf`/`infinity`/`nan` parses successfully and contributes the
corresponding non-finite value. -/
def validValues (df : vegaDataframe) (col_idx : Nat) : List DVal :=
  df.data_values.filterMap (fun row =>
    if decide (col_idx < row.length) && !(row.getD col_idx "" == "") then
      stod? (row.getD col_idx "")
    else none)

/-- `mean(col_name)`: STRING column → TypeError; no valid value →
StatisticalError; otherwise the sum of valid values over their count. -/
def mean (df : vegaDataframe) (col_name : String) : Except Err DVal := do
  let col_idx ← df.find_column_index col_name
  if df.column_types.getD col_idx .INT = .STRING then throw .TypeError
  let vs := df.validValues col_idx
  if vs.length = 0 then throw .StatisticalError
  return (DVal.sumD vs).div (DVal.fin (vs.length : ℚ))

/-- `median(col_name)`: STRING column → TypeError; no valid value →
StatisticalError; otherwise the middle of the sorted valid values (mean
of the two middles for even length).  `std::ranges::sort` is modelled by
insertion sort — any sorted permutation of the same values is the same
list. -/
def median (df : vegaDataframe) (col_name : String) : Except Err DVal := do
  let col_idx ← df.find_column_index col_name
  if df.column_types.getD col_idx .INT = .STRING then throw .TypeError
  let vs := df.validValues col_idx
  if vs.length = 0 then throw .StatisticalError
  let sorted := vs.insertionSort (fun a b => DVal.le a b)
  let n := sorted.length
  if n % 2 = 0 then
    return ((sorted.getD (n / 2 - 1) (DVal.fin 0)).add
      (sorted.getD (n / 2) (DVal.fin 0))).div (DVal.fin 2)
  else return sorted.getD (n / 2) (DVal.fin 0)

/-- `min(col_name)`: STRING column → TypeError; fold `std::min` starting
from `std::numeric_limits<double>::max()` over the valid values, with a
`found` flag; no valid value → StatisticalError. -/
def min (df : vegaDataframe) (col_name : String) : Except Err DVal := do
  let col_idx ← df.find_column_index col_name
  if df.column_types.getD col_idx .INT = .STRING then throw .TypeError
  let vs := df.validValues col_idx
  if vs.length = 0 then throw .StatisticalError
  return vs.foldl DVal.stdMin (DVal.fin maxDouble)

/-- `max(col_name)`: like `min`, folding `std::max` from
`std::numeric_limits<double>::lowest()`. -/
def max (df : vegaDataframe) (col_name : String) : Except Err DVal := do
  let col_idx ← df.find_column_index col_name
  if df.column_types.getD col_idx .INT = .STRING then throw .TypeError
  let vs := df.validValues col_idx
  if vs.length = 0 then throw .StatisticalError
  return vs.foldl DVal.stdMax (DVal.fin (-maxDouble))

/-- `std_dev(col_name)`: STRING column → TypeError; calls `mean` (whose
StatisticalError propagates when no valid value exists), then needs at
least 2 valid values, and returns `sqrt(Σ(v-μ)² / (n-1))`.  `std::sqrt`
is an uninterpreted parameter: the properties checked here do not depend
on its values. -/
def std_dev (sqrt : DVal → DVal) (df : vegaDataframe) (col_name : String) :
    Except Err DVal := do
  let col_idx ← df.find_column_index col_name
  if df.column_types.getD col_idx .INT = .STRING then throw .TypeError
  let mean_val ← df.mean col_name
  let vs := df.validValues col_idx
  if vs.length ≤ 1 then throw .StatisticalError
  return sqrt ((DVal.sumD (vs.map (fun v =>
    (v.sub mean_val).mul (v.sub mean_val)))).div
    (DVal.fin ((vs.length - 1 : Nat) : ℚ)))

/-- `quantile(col_name, q)`: STRING column → TypeError; no valid value →
StatisticalError; each requested quantile outside `[0,1]` →
StatisticalError; otherwise linear interpolation at position
`q * (n - 1)` in the sorted valid values. -/
def quantile (df : vegaDataframe) (col_name : String) (q : List ℚ) :
    Except Err (List DVal) := do
  let col_idx ← df.find_column_index col_name
  if df.column_types.getD col_idx .INT = .STRING then throw .TypeError
  let vs := df.validValues col_idx
  if vs.length = 0 then throw .StatisticalError
  let sorted := vs.insertionSort (fun a b => DVal.le a b)
  q.mapM (fun quant => do
    if quant < 0 || 1 < quant then throw .StatisticalError
    let pos : ℚ := quant * ((sorted.length - 1 : Nat) : ℚ)
    let lower := (⌊pos⌋).toNat
    let upper := (⌈pos⌉).toNat
    if lower = upper then return sorted.getD lower (DVal.fin 0)
    else
      let weight : ℚ := pos - (lower : ℚ)
      return ((sorted.getD lower (DVal.fin 0)).mul (DVal.fin (1 - weight))).add
        ((sorted.getD upper (DVal.fin 0)).mul (DVal.fin weight)))

/-! ### Grouping -/

/-- Append a row to the entry for `key`, creating the entry at the end
when absent (`groups[key].data_values.push_back(row)`); group bodies are
kept in first-encounter order (`std::map` would sort the keys, which no
property here depends on). -/
def addToGroup {κ : Type} [DecidableEq κ] (gs : List (κ × List (List String)))
    (key : κ) (row : List String) : List (κ × List (List String)) :=
  match gs with
  | [] => [(key, [row])]
  | (k, rs) :: t =>
      if k = key then (k, rs ++ [row]) :: t else (k, rs) :: addToGroup t key row

/-- Wrap collected group rows as a sub-table with the parent's schema and
refreshed statistics. -/
def mkGroup (df : vegaDataframe) (rows : List (List String)) : vegaDataframe :=
  update_stats_after_modification
    { data_features := df.data_features, column_types := df.column_types,
      non_null_counts := [], null_positions := [], data_values := rows }

/-- `groupby(col_name)` (single key): a row is added to the group of its
key cell only when `col_idx < row.size()`; shorter rows are skipped. -/
def groupby (df : vegaDataframe) (col_name : String) :
    Except Err (List (String × vegaDataframe)) := do
  let col_idx ← df.find_column_index col_name
  let gs := df.data_values.foldl (fun gs row =>
    if col_idx < row.length then addToGroup gs (row.getD col_idx "") row else gs) []
  return gs.map (fun g => (g.1, df.mkGroup g.2))

/-- `groupby(col_names)` (multi key): the key is the tuple of key cells,
a missing trailing cell contributing `""`; every row is grouped. -/
def groupbyMulti (df : vegaDataframe) (col_names : List String) :
    Except Err (List (List String × vegaDataframe)) := do
  let col_indices ← col_names.mapM df.find_column_index
  let gs := df.data_values.foldl (fun gs row =>
    addToGroup gs (col_indices.map (fun c => if c < row.length then row.getD c "" else ""))
      row) []
  return gs.map (fun g => (g.1, df.mkGroup g.2))

/-! ### Merge -/

/-- `merge(other, left_col, right_col, how)`: combined schema is the left
columns followed by the right columns except the ones named `right_col`
(types: except position `right_col_idx`); `"inner"` does a nested-loop
equality join emitting `left_row ++ right_row` with the right key cell
erased; `"left"` additionally emits an empty-padded row for unmatched
left rows; any other `how` emits nothing. -/
def merge (df other : vegaDataframe) (left_col right_col how : String) :
    Except Err vegaDataframe := do
  let left_col_idx ← df.find_column_index left_col
  let right_col_idx ← other.find_column_index right_col
  let features := df.data_features ++ other.data_features.filter (fun f => !(f == right_col))
  let types := df.column_types ++ other.column_types.eraseIdx right_col_idx
  let rows :=
    if how = "inner" then
      df.data_values.bind (fun left_row =>
        if left_col_idx < left_row.length then
          (other.data_values.filter (fun right_row =>
            decide (right_col_idx < right_row.length) &&
              (right_row.getD right_col_idx "" == left_row.getD left_col_idx ""))).map
            (fun right_row => left_row ++ right_row.eraseIdx right_col_idx)
        else [])
    else if how = "left" then
      df.data_values.bind (fun left_row =>
        let join_key := if left_col_idx < left_row.length
          then left_row.getD left_col_idx "" else ""
        let hits := (other.data_values.filter (fun right_row =>
          decide (right_col_idx < right_row.length) &&
            (right_row.getD right_col_idx "" == join_key))).map
          (fun right_row => left_row ++ right_row.eraseIdx right_col_idx)
        if hits.isEmpty then
          [left_row ++ (List.range other.data_features.length).filterMap
            (fun i => if i = right_col_idx then none else some "")]
        else hits)
    else []
  return update_stats_after_modification
    { data_features := features, column_types := types,
      non_null_counts := [], null_positions := [], data_values := rows }

/-! ### Duplicate handling -/

/-- The composite key of a row over the checked columns; a missing
trailing cell contributes `""`. -/
def rowKey (check_columns : List Nat) (row : List String) : List String :=
  check_columns.map (fun c => if c < row.length then row.getD c "" else "")

/-- One marking pass of `duplicated`: a row is marked when its key is in
the seen set (`std::set` membership is modelled by list membership),
otherwise its key is added. -/
def markDup (check_columns : List Nat) (rows : List (List String))
    (seen : List (List String)) : List Bool :=
  match rows with
  | [] => []
  | r :: t =>
      let k := rowKey check_columns r
      if k ∈ seen then true :: markDup check_columns t seen
      else false :: markDup check_columns t (k :: seen)

/-- The check-column positions of `duplicated`: all columns for an empty
subset, else the positions of the named columns. -/
def checkColumns (df : vegaDataframe) (subset : List String) : Except Err (List Nat) :=
  if subset.isEmpty then .ok (List.range df.data_features.length)
  else subset.mapM df.find_column_index

/-- `duplicated(subset, keep_first)`: forward pass for `keep_first`;
otherwise the backward pass (the C++ re-runs the scan from the last row
down with a cleared seen set). -/
def duplicated (df : vegaDataframe) (subset : List String) (keep_first : Bool) :
    Except Err (List Bool) := do
  let cc ← df.checkColumns subset
  if keep_first then return markDup cc df.data_values []
  else return (markDup cc df.data_values.reverse []).reverse

/-- `drop_duplicates(subset, keep_first)`: keep the rows not marked by
`duplicated`, with the schema copied and statistics refreshed. -/
def drop_duplicates (df : vegaDataframe) (subset : List String) (keep_first : Bool) :
    Except Err vegaDataframe := do
  let mask ← df.duplicated subset keep_first
  return update_stats_after_modification
    { data_features := df.data_features, column_types := df.column_types,
      non_null_counts := [], null_positions := [],
      data_values := (df.data_values.zip mask).filterMap
        (fun p => if p.2 then none else some p.1) }

/-- Recursive form of the rows kept by `drop_duplicates(keep_first=true)`:
a row survives when its key was not seen among earlier rows.  Proved below
to agree with the mask-then-filter computation the code performs. -/
def dedupRows (cc : List Nat) : List (List String) → List (List String) → List (List String)
  | [], _ => []
  | r :: t, seen =>
      if rowKey cc r ∈ seen then dedupRows cc t seen
      else r :: dedupRows cc t (rowKey cc r :: seen)

/-! ### Elementwise arithmetic and comparison -/

/-- One row of `divide`: positions where the right row has a cell and
neither column type is STRING are replaced by the quotient text — `"inf"`
when the right value reads as exactly `0.0` through `safe_stod` — and
every other position keeps the left cell.  `std::to_string(double)` is
the uninterpreted parameter `toStr`. -/
def divideRow (toStr : DVal → String) (ltypes rtypes : List DataType)
    (lrow rrow : List String) : List String :=
  (List.range lrow.length).map (fun j =>
    if j < rrow.length ∧ ltypes.getD j .INT ≠ .STRING ∧ rtypes.getD j .INT ≠ .STRING then
      let v1 := safe_stod (lrow.getD j "")
      let v2 := safe_stod (rrow.getD j "")
      if v2 ≠ DVal.fin 0 then toStr (v1.div v2) else "inf"
    else lrow.getD j "")

/-- `divide(other)`: identical shape required (else SchemaError); the
result starts as a copy of the left table and each row is rewritten by
`divideRow`. -/
def divide (toStr : DVal → String) (df other : vegaDataframe) : Except Err vegaDataframe :=
  if df.shape ≠ other.shape then .error .SchemaError
  else .ok { df with
    data_values := (List.range df.data_values.length).map (fun i =>
      divideRow toStr df.column_types other.column_types
        (df.data_values.getD i []) (other.data_values.getD i [])) }

/-- `eq(other)`: identical shape required; cell-wise exact text equality,
`false` where the right row is shorter. -/
def eq (df other : vegaDataframe) : Except Err (List (List Bool)) :=
  if df.shape ≠ other.shape then .error .SchemaError
  else .ok ((List.range df.data_values.length).map (fun i =>
    let lrow := df.data_values.getD i []
    let rrow := other.data_values.getD i []
    (List.range lrow.length).map (fun j =>
      if j < rrow.length then lrow.getD j "" == rrow.getD j "" else false)))

/-- `ne(other)`: `eq` followed by the loop `for (auto val : row) val = !val;`.
`row` is a `std::vector<bool>`, whose iterator yields proxy references;
`auto val` deduces the proxy type and the assignment writes through it,
so the loop really does negate every entry of the matrix in place. -/
def ne (df other : vegaDataframe) : Except Err (List (List Bool)) :=
  (df.eq other).map (fun m => m.map (fun row => row.map (fun b => !b)))

/-- `lt(other)`: identical shape required; numeric comparison via
`safe_stod` where the right cell exists and neither column type is
STRING, otherwise `std::string` lexicographic comparison of the cells
(reading `""` where the right row is shorter; the C++ reads the right
vector out of bounds there, so properties below restrict to full rows). -/
def lt (df other : vegaDataframe) : Except Err (List (List Bool)) :=
  if df.shape ≠ other.shape then .error .SchemaError
  else .ok ((List.range df.data_values.length).map (fun i =>
    let lrow := df.data_values.getD i []
    let rrow := other.data_values.getD i []
    (List.range lrow.length).map (fun j =>
      if j < rrow.length ∧ df.column_types.getD j .INT ≠ .STRING ∧
          other.column_types.getD j .INT ≠ .STRING then
        DVal.lt (safe_stod (lrow.getD j "")) (safe_stod (rrow.getD j ""))
      else decide (lrow.getD j "" < rrow.getD j ""))))

/-- `le(other)`: the disjunction `lt[i][j] || eq[i][j]`, written back into
the `lt` matrix. -/
def le (df other : vegaDataframe) : Except Err (List (List Bool)) := do
  let ltm ← df.lt other
  let eqm ← df.eq other
  return ltm.zipWith (fun lr er => lr.zipWith (fun a b => a || b) er) eqm

/-- `gt(other)`: `le` followed by the same in-place proxy negation loop
as `ne`. -/
def gt (df other : vegaDataframe) : Except Err (List (List Bool)) :=
  (df.le other).map (fun m => m.map (fun row => row.map (fun b => !b)))

/-- `ge(other)`: `lt` followed by the same in-place proxy negation loop
as `ne`. -/
def ge (df other : vegaDataframe) : Except Err (List (List Bool)) :=
  (df.lt other).map (fun m => m.map (fun row => row.map (fun b => !b)))

/-- Total cell accessor used to state cell-level properties: the text at
(row, column), reading `""` outside the stored matrix (the same reading
`iat` and `get_column` give a missing trailing cell). -/
def cellD (df : vegaDataframe) (i j : Nat) : String :=
  (df.data_values.getD i []).getD j ""

/-! ### Sampling -/

/-- The indices read by `sample(n, replace=true)`: `uniform_int_distribution
dis(0, data_values.size() - 1)` guarantees each draw lies in the closed
range, which is modelled by reducing each raw generator output modulo the
row count.  The early full-table return fires only when `!replace`. -/
def sampleReplaceIndices (df : vegaDataframe) (n : Nat) (gens : List Nat) : List Nat :=
  (List.range n).map (fun i => gens.getD i 0 % df.data_values.length)

/-- `sample(n, replace=true)`: copy the schema, push `n` randomly drawn
rows, refresh statistics. -/
def sampleReplace (df : vegaDataframe) (n : Nat) (gens : List Nat) : vegaDataframe :=
  update_stats_after_modification
    { data_features := df.data_features, column_types := df.column_types,
      non_null_counts := [], null_positions := [],
      data_values := (df.sampleReplaceIndices n gens).map
        (fun idx => df.data_values.getD idx []) }

end vegaDataframe

/-! ### Specification-side definitions

Used only to compare the code's behaviour against the spec's wording. -/

/-- The lub of two types under INT < FLOAT < STRING. -/
def DataType.lub (a b : DataType) : DataType :=
  if a.rank < b.rank then b else a

/-- Modelled from the spec: `column_types[c]` should equal ``the least
upper bound, under INT < FLOAT < STRING, of the per-cell inferred types
of all non-null cells in column c``; `none` when the column has zero
non-null cells (the spec then keeps the previously assigned type). -/
def specColumnTypeLub (df : vegaDataframe) (c : Nat) : Option DataType :=
  let cells := df.data_values.filterMap (fun row =>
    let cell := row.getD c ""
    if cell = "" then none else some cell)
  if cells.isEmpty then none
  else some ((cells.map infer_data_type).foldl DataType.lub .INT)

/-! ### Concrete fixtures -/

/-- A table whose single row is shorter than its column list. -/
def tblShortRow : vegaDataframe :=
  ⟨["a", "b"], [["x"]], [1, 0], [.STRING, .INT], [[], []]⟩

/-- A table with one row and zero columns (so that a freshly added column
with an integer cell exposes the type recorded by `add_column`). -/
def tblNoCols : vegaDataframe := ⟨[], [[]], [], [], []⟩

/-- Left merge operand `A`: columns `key, v1`, rows `[k,1], [k,2]`. -/
def tblA : vegaDataframe :=
  ⟨["key", "v1"], [["k", "1"], ["k", "2"]], [2, 2], [.STRING, .INT], [[], []]⟩

/-- Right merge operand `B`: columns `key, v2`, row `[k,9]`. -/
def tblB : vegaDataframe :=
  ⟨["key", "v2"], [["k", "9"]], [1, 1], [.STRING, .INT], [[]]⟩

/-- Expected inner merge of `tblA` and `tblB` on `key`. -/
def tblAB : vegaDataframe :=
  ⟨["key", "v1", "v2"], [["k", "1", "9"], ["k", "2", "9"]], [2, 2, 2],
    [.STRING, .INT, .INT], [[], [], []]⟩

/-- A 1×1 table holding `1`. -/
def tblOne : vegaDataframe := ⟨["a"], [["1"]], [1], [.INT], [[]]⟩

/-- A 1×1 table holding `2`. -/
def tblTwo : vegaDataframe := ⟨["a"], [["2"]], [1], [.INT], [[]]⟩

/-- A small numeric table: columns `n` (values 3, 1, null, 2) and
`s` (STRING-typed). -/
def tblNum : vegaDataframe :=
  ⟨["n", "s"], [["3", "x"], ["1", "y"], ["", "x"], ["2", "y"]],
    [3, 4], [.INT, .STRING], [[2], []]⟩

/-- A 1×1 table whose numeric-typed column holds the text `inf` — the
sentinel that `divide` itself writes into numeric columns without
changing the recorded column type. -/
def tblInf : vegaDataframe := ⟨["n"], [["inf"]], [1], [.INT], [[]]⟩

/-- A two-row table with a numeric and a STRING column, containing a zero
(used to exercise division by zero). -/
def tblDiv : vegaDataframe :=
  ⟨["n", "s"], [["1", "a"], ["0", "b"]], [2, 2], [.INT, .STRING], [[], []]⟩

/-- The expected result of dividing `tblDiv` by itself with the constant
`"q"` number formatter. -/
def tblDivRes : vegaDataframe :=
  ⟨["n", "s"], [["q", "a"], ["inf", "b"]], [2, 2], [.INT, .STRING], [[], []]⟩

/-! ## General list lemmas -/

instance exceptDecEq {ε α : Type} [DecidableEq ε] [DecidableEq α] :
    DecidableEq (Except ε α) := fun a b =>
  match a, b with
  | .error e, .error f =>
      if h : e = f then isTrue (by rw [h])
      else isFalse (by intro hh; cases hh; exact h rfl)
  | .error _, .ok _ => isFalse (by intro hh; cases hh)
  | .ok _, .error _ => isFalse (by intro hh; cases hh)
  | .ok x, .ok y =>
      if h : x = y then isTrue (by rw [h])
      else isFalse (by intro hh; cases hh; exact h rfl)

theorem length_filter_and_split {α : Type} (l : List α) (p q : α → Bool) :
    (l.filter fun x => p x && !q x).length + (l.filter fun x => p x && q x).length
      = (l.filter p).length := by
  induction l with
  | nil => simp
  | cons a t ih =>
      by_cases hp : p a <;> by_cases hq : q a <;>
        simp [List.filter_cons, hp, hq] <;> omega

theorem length_filter_range_getD {α : Type} (l : List α) (d : α) (p : α → Bool) :
    ((List.range l.length).filter fun i => p (l.getD i d)).length
      = (l.filter p).length := by
  induction l with
  | nil => simp
  | cons a t ih =>
      rw [List.length_cons, List.range_succ_eq_map, List.filter_cons]
      by_cases hp : p a <;>
        simp [hp, List.filter_map, Function.comp_def, List.getD_cons_succ,
          List.getD_cons_zero, List.filter_cons] <;>
        simpa [List.getD] using ih

theorem getD_map_range {α : Type} (f : Nat → α) (n i : Nat) (d : α) :
    ((List.range n).map f).getD i d = if i < n then f i else d := by
  by_cases h : i < n
  · rw [List.getD_eq_getElem _ _ (by simpa using h)]
    simp [h]
  · rw [List.getD_eq_default _ _ (by simpa using Nat.le_of_not_lt h)]
    simp [h]

theorem count_true_add_count_false (l : List Bool) :
    l.count true + l.count false = l.length := by
  induction l with
  | nil => simp
  | cons b t ih => cases b <;> simp [List.count_cons] <;> omega

theorem foldl_min_mem (l : List ℚ) (a : ℚ) : l.foldl Min.min a ∈ a :: l := by
  induction l generalizing a with
  | nil => simp
  | cons x t ih =>
      simp only [List.foldl_cons]
      rcases List.mem_cons.mp (ih (Min.min a x)) with hm | hm
      · rcases min_choice a x with h2 | h2
        · rw [hm, h2]; exact List.mem_cons_self _ _
        · rw [hm, h2]; exact List.mem_cons_of_mem _ (List.mem_cons_self _ _)
      · exact List.mem_cons_of_mem _ (List.mem_cons_of_mem _ hm)

theorem foldl_min_le (l : List ℚ) (a : ℚ) : ∀ x ∈ a :: l, l.foldl Min.min a ≤ x := by
  induction l generalizing a with
  | nil => simp
  | cons y t ih =>
      intro x hx
      simp only [List.foldl_cons]
      have hmin := ih (Min.min a y) (Min.min a y) (List.mem_cons_self _ _)
      rcases List.mem_cons.mp hx with rfl | hx'
      · exact hmin.trans (min_le_left _ _)
      rcases List.mem_cons.mp hx' with rfl | hx''
      · exact hmin.trans (min_le_right _ _)
      · exact ih (Min.min a y) x (List.mem_cons_of_mem _ hx'')

theorem foldl_max_mem (l : List ℚ) (a : ℚ) : l.foldl Max.max a ∈ a :: l := by
  induction l generalizing a with
  | nil => simp
  | cons x t ih =>
      simp only [List.foldl_cons]
      rcases List.mem_cons.mp (ih (Max.max a x)) with hm | hm
      · rcases max_choice a x with h2 | h2
        · rw [hm, h2]; exact List.mem_cons_self _ _
        · rw [hm, h2]; exact List.mem_cons_of_mem _ (List.mem_cons_self _ _)
      · exact List.mem_cons_of_mem _ (List.mem_cons_of_mem _ hm)

theorem le_foldl_max (l : List ℚ) (a : ℚ) : ∀ x ∈ a :: l, x ≤ l.foldl Max.max a := by
  induction l generalizing a with
  | nil => simp
  | cons y t ih =>
      intro x hx
      simp only [List.foldl_cons]
      have hmax := ih (Max.max a y) (Max.max a y) (List.mem_cons_self _ _)
      rcases List.mem_cons.mp hx with rfl | hx'
      · exact (le_max_left _ _).trans hmax
      rcases List.mem_cons.mp hx' with rfl | hx''
      · exact (le_max_right _ _).trans hmax
      · exact ih (Max.max a y) x (List.mem_cons_of_mem _ hx'')

theorem sorted_head_le (l : List ℚ) (hs : l.Sorted (· ≤ ·)) :
    ∀ x ∈ l, l.getD 0 0 ≤ x := by
  cases l with
  | nil => simp
  | cons h t =>
      intro x hx
      rcases List.mem_cons.mp hx with rfl | hx'
      · simp
      · simpa using (List.sorted_cons.mp hs).1 x hx'

theorem sorted_le_getLast (l : List ℚ) (hs : l.Sorted (· ≤ ·)) :
    ∀ x ∈ l, x ≤ l.getD (l.length - 1) 0 := by
  induction l with
  | nil => simp
  | cons h t ih =>
      intro x hx
      obtain ⟨hht, hst⟩ := List.sorted_cons.mp hs
      cases t with
      | nil =>
          have hxh : x = h := by simpa using hx
          simp [hxh]
      | cons y u =>
          have hgd : (h :: y :: u).getD ((h :: y :: u).length - 1) 0
              = (y :: u).getD ((y :: u).length - 1) 0 := by
            simp [List.getD_cons_succ]
          rw [hgd]
          rcases List.mem_cons.mp hx with rfl | hx'
          · have hmem : (y :: u).getD ((y :: u).length - 1) 0 ∈ (y :: u) := by
              rw [List.getD_eq_getElem _ _ (by simp)]
              exact List.getElem_mem _
            exact hht _ hmem
          · exact ih hst x hx'

/-! ## Small facts about the embedded operations -/

theorem update_stats_data_values (df : vegaDataframe) :
    (df.update_stats_after_modification).data_values = df.data_values := rfl

theorem update_stats_data_features (df : vegaDataframe) :
    (df.update_stats_after_modification).data_features = df.data_features := rfl

theorem update_stats_column_types (df : vegaDataframe) :
    (df.update_stats_after_modification).column_types = df.column_types := rfl

/-! ## C1 — refreshed statistics versus row count -/

/-- C1, counterexample: on a table whose single row is shorter than the
column list, refreshing statistics leaves `non_null_counts[1] = 0` and
`null_positions[1] = []`, whose sum is 0, not the row count 1: the C++
loop counts a missing trailing cell in neither statistic. -/
theorem claim_C1_cex :
    ¬ ((tblShortRow.update_stats_after_modification).non_null_counts.getD 1 0
        + ((tblShortRow.update_stats_after_modification).null_positions.getD 1 []).length
        = tblShortRow.update_stats_after_modification.rowCount) := by decide

/-- C1, amended: after `update_stats_after_modification`, for every column
`c`, `non_null_counts[c] + |null_positions[c]|` equals the number of rows
that actually have a cell at position `c`; in particular it equals the row
count whenever every row is long enough (a missing trailing cell is
counted in neither statistic, contrary to the claim). -/
theorem claim_C1_stats_partition (df : vegaDataframe) (c : Nat)
    (hc : c < df.data_features.length) :
    ((df.update_stats_after_modification).non_null_counts.getD c 0
      + ((df.update_stats_after_modification).null_positions.getD c []).length
      = (df.data_values.filter (fun row => decide (c < row.length))).length)
    ∧ ((∀ row ∈ df.data_values, c < row.length) →
        (df.update_stats_after_modification).non_null_counts.getD c 0
          + ((df.update_stats_after_modification).null_positions.getD c []).length
          = df.rowCount) := by
  have hlen1 : c < ((List.range df.data_features.length).map (fun col =>
      ((List.range df.data_values.length).filter (fun row =>
        decide (col < (df.data_values.getD row []).length) &&
          !((df.data_values.getD row []).getD col "" == ""))).length)).length := by
    simpa using hc
  have hlen2 : c < ((List.range df.data_features.length).map (fun col =>
      (List.range df.data_values.length).filter (fun row =>
        decide (col < (df.data_values.getD row []).length) &&
          ((df.data_values.getD row []).getD col "" == "")))).length := by
    simpa using hc
  have hmain : (df.update_stats_after_modification).non_null_counts.getD c 0
      + ((df.update_stats_after_modification).null_positions.getD c []).length
      = (df.data_values.filter (fun row => decide (c < row.length))).length := by
    simp only [vegaDataframe.update_stats_after_modification]
    rw [List.getD_eq_getElem _ _ hlen1, List.getD_eq_getElem _ _ hlen2]
    simp only [List.getElem_map, List.getElem_range]
    rw [length_filter_and_split (List.range df.data_values.length)
      (fun row => decide (c < (df.data_values.getD row []).length))
      (fun row => (df.data_values.getD row []).getD c "" == "")]
    exact length_filter_range_getD df.data_values [] (fun row => decide (c < row.length))
  refine ⟨hmain, fun hall => ?_⟩
  rw [hmain, List.filter_eq_self.mpr (fun row hr => by simpa using hall row hr)]
  rfl

/-- C1, witness for the amended statement at a concrete table. -/
theorem claim_C1_witness :
    (tblOne.update_stats_after_modification).non_null_counts.getD 0 0
      + ((tblOne.update_stats_after_modification).null_positions.getD 0 []).length
      = (tblOne.data_values.filter (fun row => decide (0 < row.length))).length :=
  (claim_C1_stats_partition tblOne 0 (by decide)).1

/-! ## C3 — column type after `add_column` -/

/-- C3, counterexample: adding a column whose single value is `"1"` records
type STRING even though the least upper bound of the inferred cell types is
INT — `add_column` pushes `DataType::STRING` unconditionally. -/
theorem claim_C3_cex :
    (vegaDataframe.add_column tblNoCols "c" ["1"]).map
        (fun d => (d.column_types.getD 0 .INT, specColumnTypeLub d 0))
      = .ok (.STRING, some .INT) ∧ DataType.STRING ≠ DataType.INT := by decide

/-- C3, amended: a successful `add_column` appends exactly one entry to
`column_types`, and that entry is always STRING, regardless of the cell
values (so the lub invariant holds afterwards only when that lub is
STRING or the new column has no non-null cell). -/
theorem claim_C3_add_column_type (df : vegaDataframe) (name : String)
    (values : List String) (df2 : vegaDataframe)
    (h : vegaDataframe.add_column df name values = .ok df2) :
    df2.column_types = df.column_types ++ [.STRING] := by
  by_cases hlen : values.length = df.data_values.length
  · simp [vegaDataframe.add_column, hlen] at h
    rw [← h]
  · simp [vegaDataframe.add_column, hlen] at h

/-- C3, witness at a concrete table. -/
theorem claim_C3_witness :
    (⟨["c"], [["1"]], [1], [.STRING], [[]]⟩ : vegaDataframe).column_types
      = tblNoCols.column_types ++ [.STRING] :=
  claim_C3_add_column_type tblNoCols "c" ["1"] _ (by decide)

/-! ## C5 — concrete inner merge scenario -/

/-- C5: merging `A=[[k,1],[k,2]]` (columns key,v1) with `B=[[k,9]]`
(columns key,v2) on `key`, how="inner", yields columns key,v1,v2 and
exactly the rows `[k,1,9]`, `[k,2,9]`, in that order. -/
theorem claim_C5_merge_inner :
    vegaDataframe.merge tblA tblB "key" "key" "inner" = .ok tblAB := by decide

/-! ## C9 — comparison-matrix negation loops -/

/-- C9, counterexample: on the 1×1 tables holding `1` and `2`, `ne`
differs from `eq` (and `gt` from `le`, `ge` from `lt`): the range-for over
a `std::vector<bool>` yields proxy references, so `val = !val` writes
through and the loops really negate the matrices. -/
theorem claim_C9_cex :
    ¬ (vegaDataframe.ne tblOne tblTwo = vegaDataframe.eq tblOne tblTwo
      ∧ vegaDataframe.gt tblOne tblTwo = vegaDataframe.le tblOne tblTwo
      ∧ vegaDataframe.ge tblOne tblTwo = vegaDataframe.lt tblOne tblTwo) := by decide

/-- C9, amended: `ne` returns the element-wise negation of the `eq`
matrix, `gt` the negation of `le`, and `ge` the negation of `lt` — the
negation loops do take effect, because iterating a `std::vector<bool>` by
`auto val` copies a proxy reference and assigning to it writes back into
the matrix. -/
theorem claim_C9_negation (df other : vegaDataframe) (m : List (List Bool)) :
    (vegaDataframe.eq df other = .ok m →
      vegaDataframe.ne df other = .ok (m.map (fun r => r.map (fun b => !b))))
    ∧ (vegaDataframe.le df other = .ok m →
      vegaDataframe.gt df other = .ok (m.map (fun r => r.map (fun b => !b))))
    ∧ (vegaDataframe.lt df other = .ok m →
      vegaDataframe.ge df other = .ok (m.map (fun r => r.map (fun b => !b)))) := by
  refine ⟨fun h => ?_, fun h => ?_, fun h => ?_⟩
  · simp [vegaDataframe.ne, h, Except.map]
  · simp [vegaDataframe.gt, h, Except.map]
  · simp [vegaDataframe.ge, h, Except.map]

/-- C9, witness for the amended statement at a concrete pair of tables. -/
theorem claim_C9_witness :
    vegaDataframe.ne tblOne tblTwo = .ok [[true]] :=
  (claim_C9_negation tblOne tblTwo [[false]]).1 (by decide)

/-! ## C10 — sampling with replacement stays in bounds -/

/-- C10: when the table has at least one row, every index drawn by
`sample(n, replace=true)` is below the row count (the uniform distribution
is over `[0, row_count-1]`), and hence every row of the sample is a row of
the table; the empty-table case is unguarded in this branch, so the
precondition is what keeps each access in range. -/
theorem claim_C10_sample_bounds (df : vegaDataframe) (n : Nat) (gens : List Nat)
    (h : 0 < df.data_values.length) :
    (∀ idx ∈ df.sampleReplaceIndices n gens, idx < df.data_values.length)
    ∧ (∀ row ∈ (df.sampleReplace n gens).data_values, row ∈ df.data_values) := by
  constructor
  · intro idx hidx
    simp only [vegaDataframe.sampleReplaceIndices, List.mem_map] at hidx
    obtain ⟨i, _, rfl⟩ := hidx
    exact Nat.mod_lt _ h
  · intro row hrow
    rw [vegaDataframe.sampleReplace, update_stats_data_values] at hrow
    simp only [List.mem_map] at hrow
    obtain ⟨idx, hidx, rfl⟩ := hrow
    simp only [vegaDataframe.sampleReplaceIndices, List.mem_map] at hidx
    obtain ⟨i, _, rfl⟩ := hidx
    rw [List.getD_eq_getElem _ _ (Nat.mod_lt _ h)]
    exact List.getElem_mem _

/-- C10, witness: a drawn index on a concrete 4-row table is in bounds. -/
theorem claim_C10_witness : (3 : Nat) < tblNum.data_values.length :=
  (claim_C10_sample_bounds tblNum 2 [7, 9] (by decide)).1 3 (by decide)

/-! ## C8 — elementwise division -/

/-- C8: `divide` fails with SchemaError whenever the two tables differ in
row count or column count; when shapes match, every cell of a column in
which either table's recorded type is STRING passes through unchanged
from the left table, and in a column where neither type is STRING a cell
whose right-side value parses to exactly 0 becomes the text `"inf"`. -/
theorem claim_C8_divide (toStr : DVal → String) (df other : vegaDataframe) :
    ((df.data_values.length ≠ other.data_values.length
        ∨ df.data_features.length ≠ other.data_features.length) →
      vegaDataframe.divide toStr df other = .error .SchemaError)
    ∧ (∀ df2, vegaDataframe.divide toStr df other = .ok df2 →
        ∀ i j, (df.column_types.getD j .INT = .STRING
            ∨ other.column_types.getD j .INT = .STRING) →
          df2.cellD i j = df.cellD i j)
    ∧ (∀ df2, vegaDataframe.divide toStr df other = .ok df2 →
        ∀ i j, j < (df.data_values.getD i []).length →
          j < (other.data_values.getD i []).length →
          df.column_types.getD j .INT ≠ .STRING →
          other.column_types.getD j .INT ≠ .STRING →
          stod? ((other.data_values.getD i []).getD j "") = some (DVal.fin 0) →
          df2.cellD i j = "inf") := by
  refine ⟨fun hne => ?_, fun df2 h i j hty => ?_, fun df2 h i j hjl hjr htl htr h0 => ?_⟩
  · have hsh : df.shape ≠ other.shape := by
      intro heq
      have h1 := congrArg Prod.fst heq
      have h2 := congrArg Prod.snd heq
      simp only [vegaDataframe.shape] at h1 h2
      rcases hne with h | h
      · exact h h1
      · exact h h2
    simp [vegaDataframe.divide, hsh]
  · by_cases hsh : df.shape ≠ other.shape
    · simp [vegaDataframe.divide, hsh] at h
    · rw [vegaDataframe.divide, if_neg hsh] at h
      cases h
      show (((List.range df.data_values.length).map _).getD i []).getD j ""
        = (df.data_values.getD i []).getD j ""
      rw [getD_map_range]
      by_cases hi : i < df.data_values.length
      · rw [if_pos hi, vegaDataframe.divideRow, getD_map_range]
        by_cases hj : j < (df.data_values.getD i []).length
        · rw [if_pos hj]
          have hcond : ¬ (j < (other.data_values.getD i []).length
              ∧ df.column_types.getD j .INT ≠ .STRING
              ∧ other.column_types.getD j .INT ≠ .STRING) := by
            rintro ⟨_, h2, h3⟩
            rcases hty with hty | hty
            · exact h2 hty
            · exact h3 hty
          rw [if_neg hcond]
        · rw [if_neg hj, List.getD_eq_default _ _ (Nat.le_of_not_lt hj)]
      · rw [if_neg hi, List.getD_eq_default _ _ (Nat.le_of_not_lt hi)]
  · by_cases hsh : df.shape ≠ other.shape
    · simp [vegaDataframe.divide, hsh] at h
    · rw [vegaDataframe.divide, if_neg hsh] at h
      cases h
      have hi : i < df.data_values.length := by
        by_contra hi
        rw [List.getD_eq_default _ _ (Nat.le_of_not_lt hi)] at hjl
        simp at hjl
      show (((List.range df.data_values.length).map _).getD i []).getD j "" = "inf"
      rw [getD_map_range, if_pos hi, vegaDataframe.divideRow, getD_map_range, if_pos hjl,
        if_pos ⟨hjr, htl, htr⟩]
      have hv2 : safe_stod ((other.data_values.getD i []).getD j "") = DVal.fin 0 := by
        simp only [safe_stod]
        rw [h0]
        rfl
      rw [if_neg (fun hcon => hcon hv2)]

/-- C8, witness: concrete instances of all three parts on small tables. -/
theorem claim_C8_witness :
    vegaDataframe.divide (fun _ => "q") tblOne tblAB = .error .SchemaError
    ∧ tblDivRes.cellD 0 1 = tblDiv.cellD 0 1
    ∧ tblDivRes.cellD 1 0 = "inf" :=
  ⟨(claim_C8_divide (fun _ => "q") tblOne tblAB).1 (by decide),
   (claim_C8_divide (fun _ => "q") tblDiv tblDiv).2.1 tblDivRes (by decide) 0 1
     (Or.inr (by decide)),
   (claim_C8_divide (fun _ => "q") tblDiv tblDiv).2.2 tblDivRes (by decide) 1 0
     (by decide) (by decide) (by decide) (by decide) (by decide)⟩

/-! ## C4 — error behaviour of the statistical operations -/

/-- C4: for a column present in the schema, `mean`, `median`, `min`, `max`
and `std_dev` fail with TypeError when the recorded column type is STRING;
otherwise (null and unparseable cells being skipped by the valid-value
scan) `mean`/`median`/`min`/`max` fail with StatisticalError exactly when
no valid value remains, and `std_dev` fails with StatisticalError exactly
when fewer than 2 valid values remain, returning
`sqrt(Σ(v-μ)²/(n-1))` — the n−1 sample divisor — when it succeeds. -/
theorem claim_C4_stat_errors (sqrt : DVal → DVal) (df : vegaDataframe) (col : String)
    (idx : Nat) (h1 : df.find_column_index col = .ok idx) :
    (df.column_types.getD idx .INT = .STRING →
      df.mean col = .error .TypeError
      ∧ df.median col = .error .TypeError
      ∧ vegaDataframe.min df col = .error .TypeError
      ∧ vegaDataframe.max df col = .error .TypeError
      ∧ vegaDataframe.std_dev sqrt df col = .error .TypeError)
    ∧ (df.column_types.getD idx .INT ≠ .STRING →
      (df.mean col = .error .StatisticalError ↔ df.validValues idx = [])
      ∧ (df.median col = .error .StatisticalError ↔ df.validValues idx = [])
      ∧ (vegaDataframe.min df col = .error .StatisticalError ↔ df.validValues idx = [])
      ∧ (vegaDataframe.max df col = .error .StatisticalError ↔ df.validValues idx = [])
      ∧ (vegaDataframe.std_dev sqrt df col = .error .StatisticalError
          ↔ (df.validValues idx).length < 2)
      ∧ (2 ≤ (df.validValues idx).length →
          vegaDataframe.std_dev sqrt df col = .ok (sqrt
            ((DVal.sumD ((df.validValues idx).map (fun v =>
                (v.sub ((DVal.sumD (df.validValues idx)).div
                  (DVal.fin ((df.validValues idx).length : ℚ)))).mul
                  (v.sub ((DVal.sumD (df.validValues idx)).div
                    (DVal.fin ((df.validValues idx).length : ℚ))))))).div
              (DVal.fin (((df.validValues idx).length - 1 : Nat) : ℚ)))))) := by
  simp only [List.getD, List.get?_eq_getElem?]
  constructor
  · intro hty2
    refine ⟨?_, ?_, ?_, ?_, ?_⟩ <;>
      simp [vegaDataframe.mean, vegaDataframe.median, vegaDataframe.min,
        vegaDataframe.max, vegaDataframe.std_dev, h1, hty2, List.getD, List.get?_eq_getElem?, Bind.bind,
        Except.bind, pure, Except.pure, throw, throwThe, MonadExceptOf.throw]
  · intro hty2
    by_cases hvs : df.validValues idx = []
    · have hlen : (df.validValues idx).length = 0 := by simp [hvs]
      refine ⟨?_, ?_, ?_, ?_, ?_, ?_⟩ <;>
        simp [vegaDataframe.mean, vegaDataframe.median, vegaDataframe.min,
          vegaDataframe.max, vegaDataframe.std_dev, h1, hty2, hvs, hlen, List.getD, List.get?_eq_getElem?,
          Bind.bind, Except.bind, pure, Except.pure, throw, throwThe,
          MonadExceptOf.throw]
    · have hlen : (df.validValues idx).length ≠ 0 := by simpa using hvs
      have hmean : df.mean col
          = .ok ((DVal.sumD (df.validValues idx)).div
            (DVal.fin ((df.validValues idx).length : ℚ))) := by
        simp [vegaDataframe.mean, h1, hty2, hvs, List.getD, List.get?_eq_getElem?, Bind.bind, Except.bind,
          pure, Except.pure, throw, throwThe, MonadExceptOf.throw]
      by_cases h2 : (df.validValues idx).length ≤ 1
      · have hlt : (df.validValues idx).length < 2 := by omega
        refine ⟨?_, ?_, ?_, ?_, ?_, fun hge => absurd hge (by omega)⟩ <;>
          simp [vegaDataframe.mean, vegaDataframe.median, vegaDataframe.min,
            vegaDataframe.max, vegaDataframe.std_dev, h1, hty2, hvs, hlen, h2, hlt,
            hmean, List.getD, List.get?_eq_getElem?, Bind.bind, Except.bind, pure, Except.pure, throw,
            throwThe, MonadExceptOf.throw] <;> (try (split <;> simp))
      · have hlt : ¬ ((df.validValues idx).length < 2) := by omega
        refine ⟨?_, ?_, ?_, ?_, ?_, ?_⟩ <;>
          simp [vegaDataframe.mean, vegaDataframe.median, vegaDataframe.min,
            vegaDataframe.max, vegaDataframe.std_dev, h1, hty2, hvs, hlen, h2, hlt,
            hmean, List.getD, List.get?_eq_getElem?, Bind.bind, Except.bind, pure, Except.pure, throw,
            throwThe, MonadExceptOf.throw] <;> (try (split <;> simp))

/-- C4, witness: on a concrete table, the STRING column fails with
TypeError and the numeric column's mean does not fail. -/
theorem claim_C4_witness :
    vegaDataframe.mean tblNum "s" = .error .TypeError
    ∧ ¬ (vegaDataframe.mean tblNum "n" = .error .StatisticalError) :=
  ⟨((claim_C4_stat_errors id tblNum "s" 1 (by decide)).1 (by decide)).1,
   fun h => by
    have := (((claim_C4_stat_errors id tblNum "n" 0 (by decide)).2
      (by decide)).1).mp h
    revert this
    decide⟩

/-! ## C6 — quantile endpoints versus min and max -/

theorem stod?_fin_bounds (s : String) (v : ℚ) (h : stod? s = some (DVal.fin v)) :
    -maxDouble ≤ v ∧ v ≤ maxDouble := by
  unfold stod? at h
  rcases hsc : strtodCore s.data with _ | ⟨w, rest⟩ <;> rw [hsc] at h
  · exact absurd h (by simp)
  · cases w with
    | fin q =>
        dsimp only at h
        split at h
        · exact absurd h (by simp)
        · rename_i hb
          simp only [Option.some.injEq, DVal.fin.injEq] at h
          subst h
          simp only [Bool.or_eq_true, decide_eq_true_eq, not_or, not_lt] at hb
          exact ⟨hb.2, hb.1⟩
    | inf => exact absurd h (by simp)
    | ninf => exact absurd h (by simp)
    | nan => exact absurd h (by simp)

theorem validValues_fin_bounds (df : vegaDataframe) (idx : Nat) :
    ∀ q : ℚ, DVal.fin q ∈ df.validValues idx → -maxDouble ≤ q ∧ q ≤ maxDouble := by
  intro q hv
  simp only [vegaDataframe.validValues, List.mem_filterMap] at hv
  obtain ⟨row, _, hsome⟩ := hv
  by_cases hcond : (decide (idx < row.length) && !(row.getD idx "" == "")) = true
  · rw [if_pos hcond] at hsome
    exact stod?_fin_bounds _ _ hsome
  · rw [if_neg hcond] at hsome
    exact absurd hsome (by simp)

theorem getD_zero_mem (l : List ℚ) (h : l ≠ []) : l.getD 0 0 ∈ l := by
  cases l with
  | nil => exact absurd rfl h
  | cons a t => simp

theorem getD_last_mem (l : List ℚ) (h : l ≠ []) : l.getD (l.length - 1) 0 ∈ l := by
  rw [List.getD_eq_getElem _ _ (by cases l with
    | nil => exact absurd rfl h
    | cons a t => simp)]
  exact List.getElem_mem _

theorem sort_head_eq_foldl_min (vs : List ℚ) (hne : vs ≠ [])
    (hbound : ∀ v ∈ vs, v ≤ maxDouble) :
    (vs.insertionSort (· ≤ ·)).getD 0 0 = vs.foldl Min.min maxDouble := by
  have hperm := List.perm_insertionSort (· ≤ ·) vs
  have hsorted := List.sorted_insertionSort (· ≤ ·) vs
  have hsne : vs.insertionSort (· ≤ ·) ≠ [] := by
    intro hnil
    have hp2 : ([] : List ℚ).Perm vs := by
      rw [← hnil]
      exact hperm
    exact hne hp2.symm.eq_nil
  have hheadmem : (vs.insertionSort (· ≤ ·)).getD 0 0 ∈ vs :=
    hperm.mem_iff.mp (getD_zero_mem _ hsne)
  apply le_antisymm
  · rcases List.mem_cons.mp (foldl_min_mem vs maxDouble) with hm | hm
    · rw [hm]
      exact hbound _ hheadmem
    · exact sorted_head_le _ hsorted _ (hperm.mem_iff.mpr hm)
  · exact foldl_min_le vs maxDouble _ (List.mem_cons_of_mem _ hheadmem)

theorem sort_last_eq_foldl_max (vs : List ℚ) (hne : vs ≠ [])
    (hbound : ∀ v ∈ vs, -maxDouble ≤ v) :
    (vs.insertionSort (· ≤ ·)).getD ((vs.insertionSort (· ≤ ·)).length - 1) 0
      = vs.foldl Max.max (-maxDouble) := by
  have hperm := List.perm_insertionSort (· ≤ ·) vs
  have hsorted := List.sorted_insertionSort (· ≤ ·) vs
  have hsne : vs.insertionSort (· ≤ ·) ≠ [] := by
    intro hnil
    have hp2 : ([] : List ℚ).Perm vs := by
      rw [← hnil]
      exact hperm
    exact hne hp2.symm.eq_nil
  have hlastmem : (vs.insertionSort (· ≤ ·)).getD
      ((vs.insertionSort (· ≤ ·)).length - 1) 0 ∈ vs :=
    hperm.mem_iff.mp (getD_last_mem _ hsne)
  apply le_antisymm
  · exact le_foldl_max vs (-maxDouble) _ (List.mem_cons_of_mem _ hlastmem)
  · rcases List.mem_cons.mp (foldl_max_mem vs (-maxDouble)) with hm | hm
    · rw [hm]
      exact hbound _ hlastmem
    · exact sorted_le_getLast _ hsorted _ (hperm.mem_iff.mpr hm)

theorem allFin_eq_map_fin (l : List DVal) (h : ∀ v ∈ l, v.isFin = true) :
    l = (l.filterMap DVal.toFin?).map DVal.fin := by
  induction l with
  | nil => rfl
  | cons a t ih =>
      cases a with
      | fin q =>
          simp only [List.filterMap_cons, DVal.toFin?, List.map_cons]
          rw [← ih (fun v hv => h v (List.mem_cons_of_mem _ hv))]
      | inf => exact absurd (h _ (List.mem_cons_self _ _)) (by simp [DVal.isFin])
      | ninf => exact absurd (h _ (List.mem_cons_self _ _)) (by simp [DVal.isFin])
      | nan => exact absurd (h _ (List.mem_cons_self _ _)) (by simp [DVal.isFin])

theorem stdMin_fin (a b : ℚ) :
    DVal.stdMin (DVal.fin a) (DVal.fin b) = DVal.fin (Min.min a b) := by
  rw [DVal.stdMin, min_def]
  by_cases h : b < a
  · rw [if_pos (by simpa [DVal.lt] using h), if_neg (not_le.mpr h)]
  · rw [if_neg (by simpa [DVal.lt] using h), if_pos (not_lt.mp h)]

theorem stdMax_fin (a b : ℚ) :
    DVal.stdMax (DVal.fin a) (DVal.fin b) = DVal.fin (Max.max a b) := by
  rw [DVal.stdMax, max_def]
  by_cases h : a < b
  · rw [if_pos (by simpa [DVal.lt] using h), if_pos (le_of_lt h)]
  · rw [if_neg (by simpa [DVal.lt] using h)]
    by_cases h2 : a ≤ b
    · rw [if_pos h2, le_antisymm h2 (not_lt.mp h)]
    · rw [if_neg h2]

theorem foldl_stdMin_map_fin (qs : List ℚ) :
    ∀ a : ℚ, (qs.map DVal.fin).foldl DVal.stdMin (DVal.fin a)
      = DVal.fin (qs.foldl Min.min a) := by
  induction qs with
  | nil => intro a; rfl
  | cons q t ih =>
      intro a
      simp only [List.map_cons, List.foldl_cons, stdMin_fin]
      exact ih _

theorem foldl_stdMax_map_fin (qs : List ℚ) :
    ∀ a : ℚ, (qs.map DVal.fin).foldl DVal.stdMax (DVal.fin a)
      = DVal.fin (qs.foldl Max.max a) := by
  induction qs with
  | nil => intro a; rfl
  | cons q t ih =>
      intro a
      simp only [List.map_cons, List.foldl_cons, stdMax_fin]
      exact ih _

theorem le_fin_iff (a b : ℚ) : (DVal.le (DVal.fin a) (DVal.fin b) = true) ↔ a ≤ b := by
  simp [DVal.le, DVal.lt]

theorem orderedInsert_map_fin (q : ℚ) (l : List ℚ) :
    (l.map DVal.fin).orderedInsert (fun a b => DVal.le a b) (DVal.fin q)
      = (l.orderedInsert (· ≤ ·) q).map DVal.fin := by
  induction l with
  | nil => rfl
  | cons x t ih =>
      simp only [List.map_cons, List.orderedInsert]
      by_cases h : q ≤ x
      · rw [if_pos ((le_fin_iff q x).mpr h), if_pos h]
        rfl
      · rw [if_neg (fun hc => h ((le_fin_iff q x).mp hc)), if_neg h]
        simp only [List.map_cons]
        rw [ih]

theorem insertionSort_map_fin (qs : List ℚ) :
    (qs.map DVal.fin).insertionSort (fun a b => DVal.le a b)
      = (qs.insertionSort (· ≤ ·)).map DVal.fin := by
  induction qs with
  | nil => rfl
  | cons q t ih =>
      simp only [List.map_cons, List.insertionSort, ih, orderedInsert_map_fin]

theorem getD_map_fin (qs : List ℚ) (i : Nat) (h : i < qs.length) :
    (qs.map DVal.fin).getD i (DVal.fin 0) = DVal.fin (qs.getD i 0) := by
  rw [List.getD_eq_getElem _ _ (by simpa using h), List.getD_eq_getElem _ _ h]
  simp

/-- C6, counterexample: a numeric-typed column holding the cell text
`inf` — the sentinel `divide` writes into numeric columns — has
`std::stod("inf") = +∞` as its single valid value, so `quantile(col,[0.0])`
returns `[+∞]` while `min`’s fold keeps its `DBL_MAX` seed
(`+∞ < DBL_MAX` is false), falsifying the claimed identity. -/
theorem claim_C6_cex :
    vegaDataframe.quantile tblInf "n" [0] = .ok [DVal.inf]
    ∧ vegaDataframe.min tblInf "n" = .ok (DVal.fin maxDouble)
    ∧ ¬ (vegaDataframe.quantile tblInf "n" [0]
        = Except.map (fun v => [v]) (vegaDataframe.min tblInf "n")) := by
  have hvv : tblInf.validValues 0 = [DVal.inf] := by decide
  have hfind : vegaDataframe.find_column_index tblInf "n" = .ok 0 := by decide
  have hty2 : ¬ (tblInf.column_types[0]?.getD DataType.INT = DataType.STRING) := by
    decide
  have hq : vegaDataframe.quantile tblInf "n" [0] = .ok [DVal.inf] := by
    simp [vegaDataframe.quantile, hfind, hty2, hvv,
      List.mapM, List.mapM.loop, List.insertionSort, List.orderedInsert,
      Bind.bind, Except.bind, pure, Except.pure, throw, throwThe,
      MonadExceptOf.throw]
    norm_num
  have hmin : vegaDataframe.min tblInf "n" = .ok (DVal.fin maxDouble) := by
    simp [vegaDataframe.min, hfind, hty2, hvv,
      DVal.stdMin, DVal.lt, Bind.bind, Except.bind, pure, Except.pure, throw,
      throwThe, MonadExceptOf.throw]
  refine ⟨hq, hmin, fun hcon => ?_⟩
  rw [hq, hmin] at hcon
  simp [Except.map] at hcon

/-- C6, amended: for a schema column whose recorded type is not STRING,
which has at least one valid value, and all of whose valid values are
finite (no `inf`/`infinity`/`nan` cells — such cells parse successfully
and break the identity, as `divide`’s `inf` sentinel shows),
`quantile(col, [0.0])` returns exactly `[min(col)]` and
`quantile(col, [1.0])` returns exactly `[max(col)]`, by the interpolation
rule `p = q·(n-1)` over the sorted valid values. -/
theorem claim_C6_quantile_extremes (df : vegaDataframe) (col : String) (idx : Nat)
    (h1 : df.find_column_index col = .ok idx)
    (hty : df.column_types.getD idx .INT ≠ .STRING)
    (hvs : df.validValues idx ≠ [])
    (hfin : ∀ v ∈ df.validValues idx, v.isFin = true) :
    df.quantile col [0] = Except.map (fun v => [v]) (vegaDataframe.min df col)
    ∧ df.quantile col [1] = Except.map (fun v => [v]) (vegaDataframe.max df col) := by
  have hty2 : ¬ (df.column_types[idx]?.getD DataType.INT = DataType.STRING) := by
    simpa [List.getD] using hty
  set qs := (df.validValues idx).filterMap DVal.toFin? with hqs
  have hdecomp : df.validValues idx = qs.map DVal.fin :=
    allFin_eq_map_fin _ hfin
  have hqsne : qs ≠ [] := by
    intro hnil
    rw [hdecomp, hnil] at hvs
    exact hvs rfl
  have hqbound : ∀ q ∈ qs, -maxDouble ≤ q ∧ q ≤ maxDouble := by
    intro q hq
    apply validValues_fin_bounds df idx
    rw [hdecomp]
    exact List.mem_map_of_mem DVal.fin hq
  have hmin : vegaDataframe.min df col
      = .ok (DVal.fin (qs.foldl Min.min maxDouble)) := by
    have : (df.validValues idx).foldl DVal.stdMin (DVal.fin maxDouble)
        = DVal.fin (qs.foldl Min.min maxDouble) := by
      rw [hdecomp]
      exact foldl_stdMin_map_fin qs maxDouble
    simp [vegaDataframe.min, h1, hty2, hvs, this, Bind.bind, Except.bind, pure,
      Except.pure, throw, throwThe, MonadExceptOf.throw]
  have hmax : vegaDataframe.max df col
      = .ok (DVal.fin (qs.foldl Max.max (-maxDouble))) := by
    have : (df.validValues idx).foldl DVal.stdMax (DVal.fin (-maxDouble))
        = DVal.fin (qs.foldl Max.max (-maxDouble)) := by
      rw [hdecomp]
      exact foldl_stdMax_map_fin qs (-maxDouble)
    simp [vegaDataframe.max, h1, hty2, hvs, this, Bind.bind, Except.bind, pure,
      Except.pure, throw, throwThe, MonadExceptOf.throw]
  have hsort : (df.validValues idx).insertionSort (fun a b => DVal.le a b)
      = (qs.insertionSort (· ≤ ·)).map DVal.fin := by
    rw [hdecomp]
    exact insertionSort_map_fin qs
  have hsortlen : ((df.validValues idx).insertionSort
      (fun a b => DVal.le a b)).length = qs.length := by
    rw [hsort, List.length_map, List.length_insertionSort]
  have hqsortne : qs.insertionSort (· ≤ ·) ≠ [] := by
    intro hnil
    have hp2 : ([] : List ℚ).Perm qs := by
      rw [← hnil]
      exact List.perm_insertionSort (· ≤ ·) qs
    exact hqsne hp2.symm.eq_nil
  have hqsortlen : (qs.insertionSort (· ≤ ·)).length = qs.length :=
    List.length_insertionSort _ _
  constructor
  · rw [hmin]
    have hq : df.quantile col [0]
        = .ok [((df.validValues idx).insertionSort
            (fun a b => DVal.le a b)).getD 0 (DVal.fin 0)] := by
      simp [vegaDataframe.quantile, h1, hty2, hvs, List.mapM, List.mapM.loop,
        Bind.bind, Except.bind, pure, Except.pure, throw, throwThe,
        MonadExceptOf.throw]
      norm_num
    rw [hq, hsort, getD_map_fin _ _ (by
      rw [hqsortlen]
      exact List.length_pos.mpr hqsne),
      sort_head_eq_foldl_min qs hqsne (fun q hq => (hqbound q hq).2)]
    rfl
  · rw [hmax]
    have hq : df.quantile col [1]
        = .ok [((df.validValues idx).insertionSort
            (fun a b => DVal.le a b)).getD
            (qs.length - 1) (DVal.fin 0)] := by
      simp [vegaDataframe.quantile, h1, hty2, hvs, hsortlen, List.mapM,
        List.mapM.loop, Bind.bind, Except.bind, pure, Except.pure, throw,
        throwThe, MonadExceptOf.throw]
      norm_num
    have hlast : (qs.insertionSort (· ≤ ·)).getD
        ((qs.insertionSort (· ≤ ·)).length - 1) 0
        = qs.foldl Max.max (-maxDouble) :=
      sort_last_eq_foldl_max qs hqsne (fun q hq => (hqbound q hq).1)
    rw [hq, hsort, getD_map_fin _ _ (by
      rw [hqsortlen]
      have := List.length_pos.mpr hqsne
      omega), ← hqsortlen, hlast]
    rfl

/-- C6, witness for the amended statement: on the concrete all-finite
numeric column of `tblNum`, `quantile [0]` agrees with `min`. -/
theorem claim_C6_witness :
    tblNum.quantile "n" [0]
      = Except.map (fun v => [v]) (vegaDataframe.min tblNum "n") :=
  (claim_C6_quantile_extremes tblNum "n" 0 (by decide) (by decide) (by decide)
    (by decide)).1

/-! ## C2 — groupby as a partition -/

theorem addToGroup_join {κ : Type} [DecidableEq κ] (gs : List (κ × List (List String)))
    (key : κ) (row : List String) :
    ((vegaDataframe.addToGroup gs key row).bind (fun g => g.2)).Perm
      ((gs.bind (fun g => g.2)) ++ [row]) := by
  induction gs with
  | nil => simp [vegaDataframe.addToGroup]
  | cons p t ih =>
      obtain ⟨k, rs⟩ := p
      by_cases hk : k = key
      · simp only [vegaDataframe.addToGroup, if_pos hk, List.cons_bind]
        rw [List.append_assoc, List.append_assoc]
        exact List.Perm.append_left rs (List.perm_append_comm)
      · simp only [vegaDataframe.addToGroup, if_neg hk, List.cons_bind]
        rw [List.append_assoc]
        exact List.Perm.append_left rs ih

theorem foldl_addToGroup_join {κ : Type} [DecidableEq κ] (keyf : List String → κ)
    (pred : List String → Prop) [DecidablePred pred] (rows : List (List String)) :
    ∀ gs0 : List (κ × List (List String)),
    ((rows.foldl (fun gs row =>
        if pred row then vegaDataframe.addToGroup gs (keyf row) row else gs) gs0).bind
      (fun g => g.2)).Perm
      ((gs0.bind (fun g => g.2)) ++ rows.filter (fun row => decide (pred row))) := by
  induction rows with
  | nil => intro gs0; simp
  | cons r t ih =>
      intro gs0
      by_cases hp : pred r
      · simp only [List.foldl_cons, if_pos hp, List.filter_cons, decide_eq_true hp]
        refine (ih (vegaDataframe.addToGroup gs0 (keyf r) r)).trans ?_
        refine (List.Perm.append_right _ (addToGroup_join gs0 (keyf r) r)).trans ?_
        rw [List.append_assoc]
        rfl
      · simp only [List.foldl_cons, if_neg hp, List.filter_cons]
        have hd : decide (pred r) = false := by simpa using hp
        rw [hd]
        simpa using ih gs0

theorem foldl_addToGroup_join_all {κ : Type} [DecidableEq κ] (keyf : List String → κ)
    (rows : List (List String)) :
    ∀ gs0 : List (κ × List (List String)),
    ((rows.foldl (fun gs row =>
        vegaDataframe.addToGroup gs (keyf row) row) gs0).bind (fun g => g.2)).Perm
      ((gs0.bind (fun g => g.2)) ++ rows) := by
  induction rows with
  | nil => intro gs0; simp
  | cons r t ih =>
      intro gs0
      simp only [List.foldl_cons]
      refine (ih (vegaDataframe.addToGroup gs0 (keyf r) r)).trans ?_
      refine (List.Perm.append_right _ (addToGroup_join gs0 (keyf r) r)).trans ?_
      rw [List.append_assoc]
      rfl

theorem bind_map_mkGroup {κ : Type} (gs : List (κ × List (List String)))
    (df : vegaDataframe) :
    ((gs.map (fun g => (g.1, df.mkGroup g.2))).bind (fun g => g.2.data_values))
      = gs.bind (fun g => g.2) := by
  induction gs with
  | nil => rfl
  | cons p t ih =>
      simp only [List.map_cons, List.cons_bind, ih]
      rfl

/-- C2, counterexample: on a table whose single row is shorter than the
position of the key column, single-key groupby produces no group at all —
the row is dropped, so the multiset union of the groups' rows is empty
while the table has one row. -/
theorem claim_C2_cex :
    vegaDataframe.groupby tblShortRow "b" = .ok []
    ∧ ¬ (([] : List (List String)).Perm tblShortRow.data_values) := by
  constructor
  · rfl
  · decide

/-- C2, amended: multi-key groupby partitions every row (a missing key
cell contributes an empty-string key component), so the multiset union of
its groups equals the table's rows; single-key groupby, however,
partitions exactly the rows that have a cell at the key column's position
and silently drops shorter rows. -/
theorem claim_C2_groupby_partition :
    (∀ (df : vegaDataframe) (col : String) (idx : Nat)
        (gs : List (String × vegaDataframe)),
      df.find_column_index col = .ok idx →
      df.groupby col = .ok gs →
      ((gs.bind (fun g => g.2.data_values))).Perm
        (df.data_values.filter (fun row => decide (idx < row.length))))
    ∧ (∀ (df : vegaDataframe) (cols : List String) (idxs : List Nat)
        (gs : List (List String × vegaDataframe)),
      cols.mapM df.find_column_index = .ok idxs →
      df.groupbyMulti cols = .ok gs →
      ((gs.bind (fun g => g.2.data_values))).Perm df.data_values) := by
  constructor
  · intro df col idx gs h1 h2
    rw [vegaDataframe.groupby] at h2
    rw [h1] at h2
    simp only [Bind.bind, Except.bind, pure, Except.pure] at h2
    cases h2
    rw [bind_map_mkGroup]
    exact foldl_addToGroup_join (fun row => row.getD idx "")
      (fun row => idx < row.length) df.data_values []
  · intro df cols idxs gs h1 h2
    rw [vegaDataframe.groupbyMulti] at h2
    rw [h1] at h2
    simp only [Bind.bind, Except.bind, pure, Except.pure] at h2
    cases h2
    rw [bind_map_mkGroup]
    exact foldl_addToGroup_join_all
      (fun row => idxs.map (fun c => if c < row.length then row.getD c "" else ""))
      df.data_values []

/-- C2, witness: the multi-key grouping of `tblShortRow` by `b` keeps its
single (short) row. -/
theorem claim_C2_witness :
    (([(([""] : List String),
        vegaDataframe.mkGroup tblShortRow [["x"]])]).bind
      (fun g => g.2.data_values)).Perm tblShortRow.data_values :=
  claim_C2_groupby_partition.2 tblShortRow ["b"] [1] _ (by rfl) (by rfl)

/-! ## C7 — drop_duplicates idempotence and the duplicated count -/

theorem markDup_length (cc : List Nat) (rows : List (List String))
    (seen : List (List String)) :
    (vegaDataframe.markDup cc rows seen).length = rows.length := by
  induction rows generalizing seen with
  | nil => rfl
  | cons r t ih =>
      rw [vegaDataframe.markDup]
      by_cases h : vegaDataframe.rowKey cc r ∈ seen
      · rw [if_pos h]
        simp [ih]
      · rw [if_neg h]
        simp [ih]

theorem zip_markDup_eq_dedupRows (cc : List Nat) (rows : List (List String))
    (seen : List (List String)) :
    ((rows.zip (vegaDataframe.markDup cc rows seen)).filterMap
        (fun p => if p.2 then none else some p.1))
      = vegaDataframe.dedupRows cc rows seen := by
  induction rows generalizing seen with
  | nil => rfl
  | cons r t ih =>
      rw [vegaDataframe.markDup, vegaDataframe.dedupRows]
      by_cases h : vegaDataframe.rowKey cc r ∈ seen
      · rw [if_pos h, if_pos h]
        simp [ih]
      · rw [if_neg h, if_neg h]
        simp [ih]

theorem dedupRows_keys_nodup (cc : List Nat) (rows : List (List String)) :
    ∀ seen : List (List String),
      ((vegaDataframe.dedupRows cc rows seen).map (vegaDataframe.rowKey cc)).Nodup
      ∧ ∀ k ∈ (vegaDataframe.dedupRows cc rows seen).map (vegaDataframe.rowKey cc),
          k ∉ seen := by
  induction rows with
  | nil => intro seen; simp [vegaDataframe.dedupRows]
  | cons r t ih =>
      intro seen
      rw [vegaDataframe.dedupRows]
      by_cases h : vegaDataframe.rowKey cc r ∈ seen
      · rw [if_pos h]
        exact ih seen
      · rw [if_neg h]
        obtain ⟨ihn, ihs⟩ := ih (vegaDataframe.rowKey cc r :: seen)
        refine ⟨?_, ?_⟩
        · simp only [List.map_cons, List.nodup_cons]
          exact ⟨fun hk => (ihs _ hk) (List.mem_cons_self _ _), ihn⟩
        · intro k hk
          simp only [List.map_cons, List.mem_cons] at hk
          rcases hk with rfl | hk'
          · exact h
          · exact fun hks => (ihs _ hk') (List.mem_cons_of_mem _ hks)

theorem markDup_all_false (cc : List Nat) (rows : List (List String)) :
    ∀ seen : List (List String),
      ((rows.map (vegaDataframe.rowKey cc)).Nodup) →
      (∀ k ∈ rows.map (vegaDataframe.rowKey cc), k ∉ seen) →
      vegaDataframe.markDup cc rows seen = List.replicate rows.length false := by
  induction rows with
  | nil => intro seen _ _; rfl
  | cons r t ih =>
      intro seen hn hs
      rw [vegaDataframe.markDup]
      have hr : vegaDataframe.rowKey cc r ∉ seen :=
        hs _ (by simp)
      rw [if_neg hr]
      simp only [List.map_cons, List.nodup_cons] at hn
      rw [List.length_cons, List.replicate_succ]
      congr 1
      refine ih _ hn.2 ?_
      intro k hk
      intro hkmem
      rcases List.mem_cons.mp hkmem with hke | hkseen
      · exact hn.1 (hke ▸ hk)
      · exact hs k (List.mem_cons_of_mem _ hk) hkseen

theorem zip_replicate_false_filterMap (rows : List (List String)) :
    ((rows.zip (List.replicate rows.length false)).filterMap
        (fun p => if p.2 then none else some p.1)) = rows := by
  induction rows with
  | nil => rfl
  | cons r t ih => simp [List.replicate_succ, ih]

theorem zip_filterMap_length_count (rows : List (List String)) :
    ∀ marks : List Bool, rows.length = marks.length →
      ((rows.zip marks).filterMap (fun p => if p.2 then none else some p.1)).length
        = marks.count false := by
  induction rows with
  | nil =>
      intro marks h
      cases marks with
      | nil => rfl
      | cons b m => simp at h
  | cons r t ih =>
      intro marks h
      cases marks with
      | nil => simp at h
      | cons b m =>
          cases b <;> simp [List.count_cons, ih m (by simpa using h)]

theorem checkColumns_congr (d1 d2 : vegaDataframe) (subset : List String)
    (h : d1.data_features = d2.data_features) :
    d1.checkColumns subset = d2.checkColumns subset := by
  have hf : d1.find_column_index = d2.find_column_index := by
    funext c
    rw [vegaDataframe.find_column_index, vegaDataframe.find_column_index, h]
  rw [vegaDataframe.checkColumns, vegaDataframe.checkColumns, h, hf]

/-- C7: with `keep_first = true` and a resolvable column subset,
`drop_duplicates` is idempotent — applying it to its own result returns
the same table, statistics included — and `duplicated` marks exactly
`row_count - |drop_duplicates result|` rows. -/
theorem claim_C7_dedup (df : vegaDataframe) (subset : List String) (cc : List Nat)
    (hcc : df.checkColumns subset = .ok cc) :
    (∀ df1, df.drop_duplicates subset true = .ok df1 →
        df1.drop_duplicates subset true = .ok df1)
    ∧ (∀ marks df1, df.duplicated subset true = .ok marks →
        df.drop_duplicates subset true = .ok df1 →
        marks.count true = df.rowCount - df1.rowCount) := by
  have hdup : df.duplicated subset true
      = .ok (vegaDataframe.markDup cc df.data_values []) := by
    simp [vegaDataframe.duplicated, hcc, Bind.bind, Except.bind, pure, Except.pure]
  have hdd : df.drop_duplicates subset true
      = .ok (vegaDataframe.update_stats_after_modification
        { data_features := df.data_features, column_types := df.column_types,
          non_null_counts := [], null_positions := [],
          data_values := vegaDataframe.dedupRows cc df.data_values [] }) := by
    simp [vegaDataframe.drop_duplicates, hdup, Bind.bind, Except.bind, pure,
      Except.pure, zip_markDup_eq_dedupRows]
  constructor
  · intro df1 h
    rw [hdd] at h
    cases h
    set D := vegaDataframe.update_stats_after_modification
      { data_features := df.data_features, column_types := df.column_types,
        non_null_counts := [], null_positions := [],
        data_values := vegaDataframe.dedupRows cc df.data_values [] } with hD
    have hccD : D.checkColumns subset = .ok cc := by
      rw [checkColumns_congr D df subset (by rw [hD, update_stats_data_features])]
      exact hcc
    have hdupD : D.duplicated subset true
        = .ok (vegaDataframe.markDup cc D.data_values []) := by
      simp [vegaDataframe.duplicated, hccD, Bind.bind, Except.bind, pure, Except.pure]
    have hDvals : D.data_values = vegaDataframe.dedupRows cc df.data_values [] := by
      rw [hD, update_stats_data_values]
    have hnodup := dedupRows_keys_nodup cc df.data_values ([] : List (List String))
    have hmarks : vegaDataframe.markDup cc D.data_values []
        = List.replicate D.data_values.length false := by
      rw [hDvals]
      exact markDup_all_false cc _ [] hnodup.1 (fun k _ => by simp)
    have hkept : ((D.data_values.zip (vegaDataframe.markDup cc D.data_values [])).filterMap
        (fun p => if p.2 then none else some p.1)) = D.data_values := by
      rw [hmarks]
      exact zip_replicate_false_filterMap D.data_values
    simp only [vegaDataframe.drop_duplicates, hdupD, Bind.bind, Except.bind, pure,
      Except.pure, hkept]
    rw [hD]
    rw [update_stats_data_features, update_stats_column_types, update_stats_data_values]
  · intro marks df1 hm hd
    rw [hdup] at hm
    cases hm
    rw [hdd] at hd
    cases hd
    have hlen := markDup_length cc df.data_values ([] : List (List String))
    have hcnt := count_true_add_count_false (vegaDataframe.markDup cc df.data_values [])
    have hkeptlen : (vegaDataframe.dedupRows cc df.data_values []).length
        = (vegaDataframe.markDup cc df.data_values []).count false := by
      rw [← zip_markDup_eq_dedupRows]
      exact zip_filterMap_length_count df.data_values _ hlen.symm
    have hrc : (vegaDataframe.update_stats_after_modification
        { data_features := df.data_features, column_types := df.column_types,
          non_null_counts := [], null_positions := [],
          data_values := vegaDataframe.dedupRows cc df.data_values [] }).rowCount
        = (vegaDataframe.dedupRows cc df.data_values []).length := by
      rw [vegaDataframe.rowCount, update_stats_data_values]
    rw [hrc, vegaDataframe.rowCount, hkeptlen]
    omega

/-- C7, witness: deduplicating `tblNum` on subset `[s]` keeps its first
two rows, and a second application returns that table unchanged. -/
theorem claim_C7_witness :
    vegaDataframe.drop_duplicates
        (⟨["n", "s"], [["3", "x"], ["1", "y"]], [2, 2], [.INT, .STRING], [[], []]⟩ :
          vegaDataframe) ["s"] true
      = .ok ⟨["n", "s"], [["3", "x"], ["1", "y"]], [2, 2], [.INT, .STRING], [[], []]⟩ :=
  (claim_C7_dedup tblNum ["s"] [1] (by rfl)).1 _ (by rfl)

end Vega
